import Mathlib

/-!
Shallow embedding of the pack explosion engine from
`gitoxide-core/src/pack/explode.rs`.

Pure parts (safety-check parsing, the output-writer variant selection, the
per-object visitor's mismatch policy, error construction and rendering) are
translated directly.  Filesystem effects (the loose-object store, pack-file
removal) and the external traversal service are made explicit: the store is a
list of written objects, and the orchestrator threads an event trace recording
bundle opening, decode-cache creation, visitor invocations, the bundle drop and
file removals, so that sequencing claims can be stated over the trace.
Object ids (SHA-1 values in the source) are modelled as natural numbers and the
hash computation performed by the object database is an explicit parameter.
Apostrophes appearing in the source's message format strings are elided.
-/

/-- Object kinds of `git_object::Kind` as displayed by its `Display` impl. -/
inductive Kind
  | tree
  | blob
  | commit
  | tag
deriving DecidableEq

def kindName : Kind → String
  | .tree => "tree"
  | .blob => "blob"
  | .commit => "commit"
  | .tag => "tag"

/-- `SafetyCheck` from `explode.rs` (variant order as in the source). -/
inductive SafetyCheck
  | skipFileChecksumVerification
  | skipFileAndObjectChecksumVerification
  | skipFileAndObjectChecksumVerificationAndNoAbortOnDecodeError
  | all
deriving DecidableEq

/-- `SafetyCheck::variants()`. -/
def SafetyCheck.variants : List String :=
  ["all", "skip-file-checksum", "skip-file-and-object-checksum",
   "skip-file-and-object-checksum-and-no-abort-on-decode"]

/-- `impl FromStr for SafetyCheck`: the four exact keys succeed, anything else
is an error carrying the offending string (quotes of the source format string
elided). -/
def SafetyCheck.from_str (s : String) : Except String SafetyCheck :=
  if s = "skip-file-checksum" then .ok .skipFileChecksumVerification
  else if s = "skip-file-and-object-checksum" then
    .ok .skipFileAndObjectChecksumVerification
  else if s = "skip-file-and-object-checksum-and-no-abort-on-decode" then
    .ok .skipFileAndObjectChecksumVerificationAndNoAbortOnDecodeError
  else if s = "all" then .ok .all
  else .error ("Unknown value for safety check: " ++ s)

/-- The loose-object store: a list of (kind, id, content) records; the id is
the content address. -/
abbrev Store := List (Kind × Nat × List Nat)

def storeHasId (st : Store) (id : Nat) : Bool :=
  st.any fun e => e.2.1 = id

/-- Writing into the loose store is content-addressed and idempotent: a second
write of an existing id is a no-op. -/
def looseWrite (st : Store) (kind : Kind) (id : Nat) (buf : List Nat) : Store :=
  if storeHasId st id then st else (kind, id, buf) :: st

/-- `OutputWriter` from `explode.rs`: `Loose(loose::Db)` persists into a
directory, `Sink` only computes the id. -/
inductive OutputWriter
  | loose (path : String)
  | sink
deriving DecidableEq

/-- `OutputWriter::new`: a `Some` path selects the loose (persisting) variant
at that path, `None` selects the sink. -/
def OutputWriter.new (path : Option String) : OutputWriter :=
  match path with
  | some p => .loose p
  | none => .sink

/-- `write_buf` of `impl git_odb::Write for OutputWriter`: both variants return
the content id computed by the hash; only the loose variant mutates the
store. -/
def OutputWriter.write_buf (hash : Kind → List Nat → Nat) :
    OutputWriter → Kind → List Nat → Store → Nat × Store
  | .loose _, kind, buf, st =>
      let id := hash kind buf
      (id, looseWrite st kind id buf)
  | .sink, kind, buf, st => (hash kind buf, st)

/-- The `Error` enum of `explode.rs` (quick_error), with the field order of the
source: `ObjectEncodeMismatch(kind, actual, expected)`. -/
inductive Error
  | write (kind : Kind) (id : Nat)
  | objectEncodeMismatch (kind : Kind) (actual : Nat) (expected : Nat)
  | removeFile (index : String) (data : String)
deriving DecidableEq

/-- The first (`actual`) id field of an `ObjectEncodeMismatch` error. -/
def mismatchActual : Error → Option Nat
  | .objectEncodeMismatch _ a _ => some a
  | _ => none

/-- The second (`expected`) id field of an `ObjectEncodeMismatch` error. -/
def mismatchExpected : Error → Option Nat
  | .objectEncodeMismatch _ _ e => some e
  | _ => none

/-- The `display(...)` strings of the quick_error declaration.  Note that
`ObjectEncodeMismatch` renders `expected` in the object slot and `actual` in
the new-hash slot. -/
def Error.render : Error → String
  | .write kind id => "Failed to write " ++ kindName kind ++ " object " ++ toString id
  | .objectEncodeMismatch kind actual expected =>
      kindName kind ++ " object " ++ toString expected ++
        " was not re-encoded without change - new hash is " ++ toString actual
  | .removeFile index data =>
      "Failed to delete pack index file at " ++ index ++ " or data file at " ++ data

/-- The informational note on a tolerated tree mismatch, from
`progress.info(format!(...))` in the visitor. -/
def treeNote (oid written : Nat) : String :=
  "The tree in pack named " ++ toString oid ++ " was written as " ++
    toString written ++ " due to modes 100664 and 100640 rewritten as 100644."

/-- The informational note after a successful pack deletion. -/
def removedNote (index data : String) : String :=
  "Removed " ++ index ++ " and " ++ data

instance {ε α : Type} [DecidableEq ε] [DecidableEq α] : DecidableEq (Except ε α) := by
  intro a b
  cases a <;> cases b
  case error.error x y =>
    exact if h : x = y then .isTrue (by rw [h]) else .isFalse (by simpa using h)
  case ok.ok x y =>
    exact if h : x = y then .isTrue (by rw [h]) else .isFalse (by simpa using h)
  case error.ok x y => exact .isFalse (by simp)
  case ok.error x y => exact .isFalse (by simp)

/-- A pack index entry as seen by the visitor (`index_entry.oid`). -/
structure IndexEntry where
  oid : Nat
deriving DecidableEq

/-- Result of one visitor invocation: the traversal-facing result plus the
(filesystem) store and informational messages, which persist even when the
result is an error. -/
structure VisitResult where
  result : Except Error Unit
  store : Store
  infos : List String
deriving DecidableEq

/-- The per-object visitor closure inside `pack_or_pack_index`: write the
buffer through the output writer first, then compare the written id with the
index entry's id; a tree mismatch is tolerated with an informational note, any
other mismatch is an `ObjectEncodeMismatch` error carrying
`(kind, index_entry.oid, written_id)`. -/
def visit (hash : Kind → List Nat → Nat) (out : OutputWriter) (kind : Kind)
    (buf : List Nat) (entry : IndexEntry) (store : Store) (infos : List String) :
    VisitResult :=
  let (written_id, store) := out.write_buf hash kind buf store
  if written_id ≠ entry.oid then
    if kind = .tree then
      ⟨.ok (), store, infos ++ [treeNote entry.oid written_id]⟩
    else
      ⟨.error (.objectEncodeMismatch kind entry.oid written_id), store, infos⟩
  else
    ⟨.ok (), store, infos⟩

/-- A decoded pack entry handed to the visitor by the traversal service:
object kind, decoded content, and the id recorded in the pack index. -/
structure PackEntry where
  kind : Kind
  buf : List Nat
  oid : Nat
deriving DecidableEq

/-- Observable events of an explosion run, in order: bundle opening, creation
of a per-worker decode cache, each visitor invocation, the explicit drop of the
bundle, and each successful `fs::remove_file`. -/
inductive Event
  | bundleOpened
  | cacheCreated
  | visitorCalled (oid : Nat)
  | bundleDropped
  | removedFile (path : String)
deriving DecidableEq

/-- Paths of the files removed during a trace, in removal order. -/
def removals (evs : List Event) : List String :=
  evs.filterMap fun e =>
    match e with
    | .removedFile p => some p
    | _ => none

/-- A filesystem node is a regular file or a directory (what `Path::is_dir`
distinguishes). -/
inductive FsNode
  | file
  | dir
deriving DecidableEq

/-- The environment an explosion run interacts with: whether the pack bundle
at the given path opens, the paths of its two backing files, the filesystem
used for the destination-directory check, the entries the traversal service
decodes, the object hash function, and whether each `fs::remove_file` call
succeeds. -/
structure Env where
  bundleOk : Bool
  indexPath : String
  dataPath : String
  fs : String → Option FsNode
  entries : List PackEntry
  hash : Kind → List Nat → Nat
  removeIndexOk : Bool
  removeDataOk : Bool

/-- `Path::is_dir` over the modelled filesystem. -/
def isDir (env : Env) (p : String) : Bool := env.fs p = some .dir

/-- The destination precondition
`!object_path.as_ref().map(|p| p.as_ref().is_dir()).unwrap_or(true)`:
a supplied path that is not a directory yields the inaccessible-destination
error naming that path; no supplied path passes. -/
def dirCheck (env : Env) (objectPath : Option String) : Option String :=
  match objectPath with
  | some p => if isDir env p then none else some p
  | none => none

/-- The traversal service driving the visitor once per decoded entry, aborting
at the first visitor error; the store and infos reached so far (including the
failing entry's write) survive an abort. -/
def traverseEntries (hash : Kind → List Nat → Nat) (out : OutputWriter) :
    List PackEntry → Store → List String → List Event →
    Except Error Unit × Store × List String × List Event
  | [], st, infos, evs => (.ok (), st, infos, evs)
  | e :: rest, st, infos, evs =>
    let v := visit hash out e.kind e.buf ⟨e.oid⟩ st infos
    match v.result with
    | .ok _ => traverseEntries hash out rest v.store v.infos (evs ++ [.visitorCalled e.oid])
    | .error err => (.error err, v.store, v.infos, evs ++ [.visitorCalled e.oid])

/-- Top-level error of `pack_or_pack_index` (an `anyhow::Result` in the
source): bundle-open failure with its context message, the
inaccessible-destination error, a traversal error wrapped with the
explosion-failure context, or the `RemoveFile` error propagated by `?` after a
clean traversal. -/
inductive ExplodeError
  | bundleOpen (path : String)
  | inaccessibleDestination (path : String)
  | traversal (e : Error)
  | removeFile (index : String) (data : String)
deriving DecidableEq

/-- Everything observable about one run: the returned result, the destination
store, the informational messages, and the event trace. -/
structure RunResult where
  result : Except ExplodeError Unit
  store : Store
  infos : List String
  events : List Event
deriving DecidableEq

/-- The orchestrator `pack_or_pack_index`: open the bundle, check the
destination directory, traverse all entries through the visitor writing via
`OutputWriter.new object_path`, then — only after dropping the bundle and only
when the traversal succeeded — remove the index file and then the data file
when `delete_pack` is set, short-circuiting and reporting `RemoveFile` if
either removal fails.  The `check` policy is passed to the external traversal
service and has no further effect inside this function. -/
def pack_or_pack_index (env : Env) (packPath : String) (objectPath : Option String)
    (check : SafetyCheck) (deletePack : Bool) : RunResult :=
  if env.bundleOk = false then
    ⟨.error (.bundleOpen packPath), [], [], []⟩
  else
    match dirCheck env objectPath with
    | some p => ⟨.error (.inaccessibleDestination p), [], [], [.bundleOpened]⟩
    | none =>
      let _ := check
      let out := OutputWriter.new objectPath
      match traverseEntries env.hash out env.entries [] [] [.bundleOpened, .cacheCreated] with
      | (.error e, st, infos, evs) => ⟨.error (.traversal e), st, infos, evs⟩
      | (.ok _, st, infos, evs) =>
        let evs := evs ++ [.bundleDropped]
        if deletePack then
          if env.removeIndexOk then
            if env.removeDataOk then
              ⟨.ok (), st, infos ++ [removedNote env.indexPath env.dataPath],
                evs ++ [.removedFile env.indexPath, .removedFile env.dataPath]⟩
            else
              ⟨.error (.removeFile env.indexPath env.dataPath), st, infos,
                evs ++ [.removedFile env.indexPath]⟩
          else
            ⟨.error (.removeFile env.indexPath env.dataPath), st, infos, evs⟩
        else
          ⟨.ok (), st, infos, evs⟩

/-! Helper lemmas shared by the claim theorems. -/

theorem storeHasId_looseWrite (st : Store) (kind : Kind) (id : Nat) (buf : List Nat) :
    storeHasId (looseWrite st kind id buf) id = true := by
  unfold looseWrite
  split
  · assumption
  · simp [storeHasId]

theorem storeHasId_looseWrite_ne (st : Store) (kind : Kind) (w : Nat) (buf : List Nat)
    (oid : Nat) (hne : w ≠ oid) (h : storeHasId st oid = false) :
    storeHasId (looseWrite st kind w buf) oid = false := by
  unfold looseWrite
  split
  · exact h
  · simp [storeHasId] at h ⊢
    exact ⟨hne, h⟩

theorem traverseEntries_sink_store (hash : Kind → List Nat → Nat) (entries : List PackEntry) :
    ∀ st infos evs, (traverseEntries hash .sink entries st infos evs).2.1 = st := by
  induction entries with
  | nil => intro st infos evs; rfl
  | cons e rest ih =>
    intro st infos evs
    simp only [traverseEntries, visit, OutputWriter.write_buf]
    split_ifs <;> simp [ih]

theorem traverseEntries_events (hash : Kind → List Nat → Nat) (out : OutputWriter)
    (entries : List PackEntry) :
    ∀ st infos evs, ∃ mid, (traverseEntries hash out entries st infos evs).2.2.2 = evs ++ mid
      ∧ ∀ e ∈ mid, ∃ oid, e = Event.visitorCalled oid := by
  induction entries with
  | nil => intro st infos evs; exact ⟨[], by simp [traverseEntries], by simp⟩
  | cons en rest ih =>
    intro st infos evs
    simp only [traverseEntries]
    rcases hv : (visit hash out en.kind en.buf ⟨en.oid⟩ st infos).result with err | u
    · exact ⟨[.visitorCalled en.oid], by simp, by simp⟩
    · rcases ih (visit hash out en.kind en.buf ⟨en.oid⟩ st infos).store
          (visit hash out en.kind en.buf ⟨en.oid⟩ st infos).infos
          (evs ++ [.visitorCalled en.oid]) with ⟨mid, hmid, hall⟩
      refine ⟨.visitorCalled en.oid :: mid, ?_, ?_⟩
      · simpa [List.append_assoc] using hmid
      · intro e he
        rcases List.mem_cons.mp he with rfl | he
        · exact ⟨en.oid, rfl⟩
        · exact hall e he

theorem removals_of_vc (l : List Event) (h : ∀ e ∈ l, ∃ oid, e = .visitorCalled oid) :
    removals l = [] := by
  induction l with
  | nil => rfl
  | cons a t ih =>
    rcases h a (List.mem_cons_self a t) with ⟨oid, rfl⟩
    simpa [removals, List.filterMap_cons] using
      ih (fun e he => h e (List.mem_cons_of_mem _ he))

theorem takeWhile_all_append (p : Event → Bool) (l : List Event) (x : Event) (r : List Event)
    (h : ∀ e ∈ l, p e = true) (hx : p x = false) :
    (l ++ x :: r).takeWhile p = l := by
  induction l with
  | nil => simp [List.takeWhile, hx]
  | cons a t ih =>
    have ha := h a (List.mem_cons_self a t)
    simp [List.takeWhile, ha, ih (fun e he => h e (List.mem_cons_of_mem a he))]

/-- `true` except on the bundle-drop event; used to talk about the trace prefix
that precedes the drop of the bundle. -/
def notDropped : Event → Bool
  | .bundleDropped => false
  | _ => true

/-- A length-based stand-in for the SHA-1 hash, used in concrete witnesses. -/
def hashLen : Kind → List Nat → Nat := fun _ buf => buf.length

theorem visit_mismatch_result (hash : Kind → List Nat → Nat) (out : OutputWriter)
    (kind : Kind) (buf : List Nat) (oid : Nat) (st : Store) (infos : List String)
    (hne : (out.write_buf hash kind buf st).1 ≠ oid) (hk : kind ≠ .tree) :
    (visit hash out kind buf ⟨oid⟩ st infos).result =
      .error (.objectEncodeMismatch kind oid (out.write_buf hash kind buf st).1) := by
  cases out <;> simp only [OutputWriter.write_buf] at hne ⊢ <;>
    simp [visit, OutputWriter.write_buf, hne, hk]

/-! Claim theorems. -/

/-- C6: parsing a safety-check key succeeds exactly for the four case-sensitive
strings `all`, `skip-file-checksum`, `skip-file-and-object-checksum`,
`skip-file-and-object-checksum-and-no-abort-on-decode`, mapping them to the
corresponding variants; every other string fails with an error carrying the
offending string. -/
theorem from_str_exact (s : String) :
    (SafetyCheck.from_str s = .ok .all ↔ s = "all")
  ∧ (SafetyCheck.from_str s = .ok .skipFileChecksumVerification ↔ s = "skip-file-checksum")
  ∧ (SafetyCheck.from_str s = .ok .skipFileAndObjectChecksumVerification ↔
       s = "skip-file-and-object-checksum")
  ∧ (SafetyCheck.from_str s = .ok .skipFileAndObjectChecksumVerificationAndNoAbortOnDecodeError ↔
       s = "skip-file-and-object-checksum-and-no-abort-on-decode")
  ∧ ((∃ v, SafetyCheck.from_str s = .ok v) ↔ s ∈ SafetyCheck.variants)
  ∧ (s ∉ SafetyCheck.variants →
       SafetyCheck.from_str s = .error ("Unknown value for safety check: " ++ s)) := by
  unfold SafetyCheck.from_str SafetyCheck.variants
  split_ifs with h1 h2 h3 h4 <;> subst_vars <;> simp_all

/-- Witness for C6: a recognized key parses to its variant, an unknown key
(here differing only in case) fails with the offending string in the error. -/
theorem from_str_exact_ex :
    SafetyCheck.from_str "all" = .ok .all ∧
    SafetyCheck.from_str "All" = .error "Unknown value for safety check: All" :=
  ⟨(from_str_exact "all").1.mpr rfl, (from_str_exact "All").2.2.2.2.2 (by decide)⟩

/-- C2: the visitor writes the content through the output writer before
comparing ids — its resulting store is always the post-write store, even on
error (no rollback); equal ids yield success; a non-tree mismatch yields an
`ObjectEncodeMismatch` error carrying the kind and both ids, while the loose
store already holds the object under its actual (written) id and never under
the expected id. -/
theorem visit_writes_then_compares (hash : Kind → List Nat → Nat) (out : OutputWriter)
    (kind : Kind) (buf : List Nat) (oid : Nat) (st : Store) (infos : List String) :
    (visit hash out kind buf ⟨oid⟩ st infos).store = (out.write_buf hash kind buf st).2
  ∧ ((out.write_buf hash kind buf st).1 = oid →
       (visit hash out kind buf ⟨oid⟩ st infos).result = .ok ())
  ∧ ((out.write_buf hash kind buf st).1 ≠ oid → kind ≠ .tree →
       (visit hash out kind buf ⟨oid⟩ st infos).result =
         .error (.objectEncodeMismatch kind oid (out.write_buf hash kind buf st).1))
  ∧ (∀ d, out = .loose d →
       storeHasId (visit hash out kind buf ⟨oid⟩ st infos).store
         (out.write_buf hash kind buf st).1 = true)
  ∧ ((out.write_buf hash kind buf st).1 ≠ oid → storeHasId st oid = false →
       storeHasId (visit hash out kind buf ⟨oid⟩ st infos).store oid = false) := by
  cases out with
  | loose d =>
    refine ⟨?_, ?_, ?_, ?_, ?_⟩
    · simp only [visit, OutputWriter.write_buf]
      split_ifs <;> rfl
    · intro h
      simp only [OutputWriter.write_buf] at h
      simp [visit, OutputWriter.write_buf, h]
    · exact visit_mismatch_result hash (.loose d) kind buf oid st infos
    · intro d' _
      simp only [visit, OutputWriter.write_buf]
      split_ifs <;> simpa using storeHasId_looseWrite st kind (hash kind buf) buf
    · intro hne hst
      simp only [OutputWriter.write_buf] at hne
      simp only [visit, OutputWriter.write_buf]
      split_ifs <;> simpa using storeHasId_looseWrite_ne st kind (hash kind buf) buf oid hne hst
  | sink =>
    refine ⟨?_, ?_, ?_, ?_, ?_⟩
    · simp only [visit, OutputWriter.write_buf]
      split_ifs <;> rfl
    · intro h
      simp only [OutputWriter.write_buf] at h
      simp [visit, OutputWriter.write_buf, h]
    · exact visit_mismatch_result hash .sink kind buf oid st infos
    · intro d hd
      exact absurd hd (by simp)
    · intro hne hst
      simp only [visit, OutputWriter.write_buf]
      split_ifs <;> simpa using hst

/-- Witness for C2: a blob of length 2 against expected id 7 via the loose
writer fails with the mismatch error carrying both ids, and the store holds
the object under the written id 2, not under 7. -/
theorem visit_writes_then_compares_ex :
    (visit hashLen (.loose "d") .blob [1, 2] ⟨7⟩ [] []).result =
      .error (.objectEncodeMismatch .blob 7 2)
  ∧ storeHasId (visit hashLen (.loose "d") .blob [1, 2] ⟨7⟩ [] []).store 2 = true
  ∧ storeHasId (visit hashLen (.loose "d") .blob [1, 2] ⟨7⟩ [] []).store 7 = false := by
  have h := visit_writes_then_compares hashLen (.loose "d") .blob [1, 2] 7 [] []
  exact ⟨h.2.2.1 (by decide) (by decide), h.2.2.2.1 "d" rfl,
    h.2.2.2.2 (by decide) (by decide)⟩

/-- An environment whose single entry is a tree whose re-encoded id (3, by
`hashLen`) differs from the recorded id 9. -/
def envTreeMismatch : Env :=
  ⟨true, "t.idx", "t.pack", fun _ => some .dir, [⟨.tree, [1, 2, 3], 9⟩], hashLen, true, true⟩

/-- Counterexample to C7: the informational note emitted on a tolerated tree
mismatch does not identify the source pack path — two runs over the same
entries from distinct pack paths emit the identical note, whose full text
(both ids, the mode explanation, no path) is shown. -/
theorem tree_note_lacks_pack_path :
    (pack_or_pack_index envTreeMismatch "packA" none .all false).infos =
      (pack_or_pack_index envTreeMismatch "packB" none .all false).infos
  ∧ (pack_or_pack_index envTreeMismatch "packA" none .all false).infos =
      ["The tree in pack named 9 was written as 3 due to modes 100664 and 100640 rewritten as 100644."]
  ∧ "packA" ≠ "packB" :=
  ⟨rfl, rfl, by decide⟩

/-- C7 as amended: for every tolerated tree mismatch the visitor returns
success and emits exactly one informational note, which identifies both ids
(but not the source pack path). -/
theorem tree_mismatch_tolerated (hash : Kind → List Nat → Nat) (out : OutputWriter)
    (buf : List Nat) (oid : Nat) (st : Store) (infos : List String)
    (hne : (out.write_buf hash .tree buf st).1 ≠ oid) :
    (visit hash out .tree buf ⟨oid⟩ st infos).result = .ok ()
  ∧ (visit hash out .tree buf ⟨oid⟩ st infos).infos =
      infos ++ [treeNote oid (out.write_buf hash .tree buf st).1]
  ∧ ∃ a b c, treeNote oid (out.write_buf hash .tree buf st).1 =
      a ++ toString oid ++ b ++ toString (out.write_buf hash .tree buf st).1 ++ c := by
  refine ⟨?_, ?_,
    ⟨"The tree in pack named ", " was written as ",
     " due to modes 100664 and 100640 rewritten as 100644.", rfl⟩⟩ <;>
    cases out <;> simp only [OutputWriter.write_buf] at hne <;>
      simp [visit, OutputWriter.write_buf, hne]

/-- Witness for C7 (amended): a tree of content length 3 with recorded id 9 is
tolerated with the single note. -/
theorem tree_mismatch_tolerated_ex :
    (visit hashLen (.loose "d") .tree [1, 2, 3] ⟨9⟩ [] []).result = .ok ()
  ∧ (visit hashLen (.loose "d") .tree [1, 2, 3] ⟨9⟩ [] []).infos = [treeNote 9 3] := by
  have h := tree_mismatch_tolerated hashLen (.loose "d") [1, 2, 3] 9 [] [] (by decide)
  exact ⟨h.1, h.2.1⟩

/-- C9: on a non-tree mismatch the visitor constructs
`ObjectEncodeMismatch(kind, actual, expected)` with the pack-recorded id in the
`actual` field and the freshly written id in the `expected` field, so the
rendered message names the written id as the object and the pack-recorded id
as the new hash. -/
theorem mismatch_error_swapped (hash : Kind → List Nat → Nat) (out : OutputWriter)
    (kind : Kind) (buf : List Nat) (oid : Nat) (st : Store) (infos : List String)
    (hne : (out.write_buf hash kind buf st).1 ≠ oid) (hk : kind ≠ .tree) :
    (visit hash out kind buf ⟨oid⟩ st infos).result =
      .error (.objectEncodeMismatch kind oid (out.write_buf hash kind buf st).1)
  ∧ mismatchActual (.objectEncodeMismatch kind oid (out.write_buf hash kind buf st).1) =
      some oid
  ∧ mismatchExpected (.objectEncodeMismatch kind oid (out.write_buf hash kind buf st).1) =
      some (out.write_buf hash kind buf st).1
  ∧ Error.render (.objectEncodeMismatch kind oid (out.write_buf hash kind buf st).1) =
      kindName kind ++ " object " ++ toString (out.write_buf hash kind buf st).1 ++
        " was not re-encoded without change - new hash is " ++ toString oid := by
  refine ⟨?_, rfl, rfl, rfl⟩
  exact visit_mismatch_result hash out kind buf oid st infos hne hk

/-- Witness for C9: blob content of length 2 against recorded id 7 — the error
holds 7 in `actual`, 2 in `expected`, and renders "blob object 2 ... new hash
is 7". -/
theorem mismatch_error_swapped_ex :
    (visit hashLen (.loose "d") .blob [1, 2] ⟨7⟩ [] []).result =
      .error (.objectEncodeMismatch .blob 7 2)
  ∧ mismatchActual (.objectEncodeMismatch .blob 7 2) = some 7
  ∧ mismatchExpected (.objectEncodeMismatch .blob 7 2) = some 2
  ∧ Error.render (.objectEncodeMismatch .blob 7 2) =
      "blob object 2 was not re-encoded without change - new hash is 7" := by
  have h := mismatch_error_swapped hashLen (.loose "d") .blob [1, 2] 7 [] []
    (by decide) (by decide)
  exact ⟨h.1, h.2.1, h.2.2.1, by decide⟩

/-- C8: constructing the output writer with a destination directory selects
the persisting loose variant rooted there, and constructing it with no
directory selects the discarding sink; the sink never mutates the store (a
whole run with no object directory leaves the destination empty), while the
loose variant stores every written object under its content id. -/
theorem output_writer_selection :
    (∀ d : String, OutputWriter.new (some d) = .loose d)
  ∧ OutputWriter.new none = .sink
  ∧ (∀ hash kind buf st, (OutputWriter.sink.write_buf hash kind buf st).2 = st)
  ∧ (∀ d hash kind buf st,
       storeHasId ((OutputWriter.loose d).write_buf hash kind buf st).2 (hash kind buf) = true)
  ∧ (∀ env packPath check deletePack,
       (pack_or_pack_index env packPath none check deletePack).store = []) := by
  refine ⟨fun d => rfl, rfl, fun hash kind buf st => rfl,
    fun d hash kind buf st => storeHasId_looseWrite st kind (hash kind buf) buf, ?_⟩
  intro env packPath check deletePack
  unfold pack_or_pack_index
  split
  · rfl
  · have h := traverseEntries_sink_store env.hash env.entries [] []
      [.bundleOpened, .cacheCreated]
    simp only [dirCheck, OutputWriter.new]
    rcases hr : traverseEntries env.hash .sink env.entries [] [] [.bundleOpened, .cacheCreated]
      with ⟨res, st, infos, evs⟩
    rw [hr] at h
    cases res <;> first
      | simpa using h
      | (split_ifs <;> simpa using h)

/-- Witness for C8: the concrete selections, and a discard-mode run over a
non-empty pack leaving the destination store empty. -/
theorem output_writer_selection_ex :
    OutputWriter.new (some "dir") = .loose "dir"
  ∧ OutputWriter.new none = .sink
  ∧ (pack_or_pack_index envTreeMismatch "p" none .all false).store = [] :=
  ⟨output_writer_selection.1 "dir", output_writer_selection.2.1,
   output_writer_selection.2.2.2.2 envTreeMismatch "p" .all false⟩

/-- Environment with no entries; the run succeeds doing nothing. -/
def envZero : Env :=
  ⟨true, "z.idx", "z.pack", fun _ => some .dir, [], hashLen, true, true⟩

/-- Environment with three blob entries whose ids match their re-encoded
hashes; the run succeeds after processing three objects. -/
def envThreeBlobs : Env :=
  ⟨true, "z.idx", "z.pack", fun _ => some .dir,
   [⟨.blob, [1], 1⟩, ⟨.blob, [1, 2], 2⟩, ⟨.blob, [1, 2, 3], 3⟩], hashLen, true, true⟩

/-- Counterexample to C4: the value returned on success is the bare unit
`Ok(())`, not an outcome carrying counts — a run that processed zero objects
and a run that processed three return the identical success value, so the
return value cannot report the number of objects processed or the number of
tolerated mismatches. -/
theorem outcome_carries_no_counts :
    (pack_or_pack_index envZero "p" none .all false).result = .ok ()
  ∧ (pack_or_pack_index envThreeBlobs "p" none .all false).result = .ok ()
  ∧ (pack_or_pack_index envZero "p" none .all false).result =
      (pack_or_pack_index envThreeBlobs "p" none .all false).result
  ∧ envZero.entries.length = 0 ∧ envThreeBlobs.entries.length = 3 :=
  ⟨rfl, rfl, rfl, rfl, rfl⟩

/-- C4 as amended: on success the operation returns the unit value — the same
value for every successful run, carrying no counts; counts reach the caller
only through progress/informational messages. -/
theorem success_value_is_unit (e1 e2 : Env) (p1 p2 : String) (o1 o2 : Option String)
    (c1 c2 : SafetyCheck) (d1 d2 : Bool)
    (h1 : ∀ err, (pack_or_pack_index e1 p1 o1 c1 d1).result ≠ .error err)
    (h2 : ∀ err, (pack_or_pack_index e2 p2 o2 c2 d2).result ≠ .error err) :
    (pack_or_pack_index e1 p1 o1 c1 d1).result = .ok ()
  ∧ (pack_or_pack_index e1 p1 o1 c1 d1).result =
      (pack_or_pack_index e2 p2 o2 c2 d2).result := by
  rcases hr1 : (pack_or_pack_index e1 p1 o1 c1 d1).result with err | u
  · exact absurd hr1 (h1 err)
  · rcases hr2 : (pack_or_pack_index e2 p2 o2 c2 d2).result with err | u2
    · exact absurd hr2 (h2 err)
    · cases u; cases u2; exact ⟨rfl, rfl⟩

/-- Witness for C4 (amended): two concrete successful runs (zero and three
objects) both return the unit success value. -/
theorem success_value_is_unit_ex :
    (pack_or_pack_index envZero "p" none .all false).result = .ok ()
  ∧ (pack_or_pack_index envZero "p" none .all false).result =
      (pack_or_pack_index envThreeBlobs "q" (some "d") .all true).result :=
  success_value_is_unit envZero envThreeBlobs "p" "q" none (some "d") .all .all false true
    (fun err h => by rw [show (pack_or_pack_index envZero "p" none .all false).result =
        .ok () from rfl] at h; exact Except.noConfusion h)
    (fun err h => by rw [show (pack_or_pack_index envThreeBlobs "q" (some "d") .all true).result =
        .ok () from rfl] at h; exact Except.noConfusion h)

/-- C5: when the supplied output directory does not exist (and the bundle
itself opens), the run returns the inaccessible-destination error naming that
path, with an empty store (zero files written), no informational output, and a
trace containing no cache creation, no visitor invocation and no removal —
the check fires before traversal starts. -/
theorem inaccessible_destination_check (env : Env) (packPath p : String)
    (check : SafetyCheck) (deletePack : Bool)
    (hb : env.bundleOk = true) (hfs : env.fs p = none) :
    pack_or_pack_index env packPath (some p) check deletePack =
      ⟨.error (.inaccessibleDestination p), [], [], [.bundleOpened]⟩ := by
  unfold pack_or_pack_index
  simp [hb, dirCheck, isDir, hfs]

/-- Concrete filesystem for the C5 witness: only "d" exists, as a directory. -/
def envMissingDir : Env :=
  ⟨true, "m.idx", "m.pack", fun q => if q = "d" then some .dir else none,
   [⟨.blob, [1], 1⟩], hashLen, true, true⟩

/-- Witness for C5: asking for the non-existent directory "x" fails with the
error naming "x" and a bundle-open-only trace. -/
theorem inaccessible_destination_check_ex :
    pack_or_pack_index envMissingDir "p" (some "x") .all true =
      ⟨.error (.inaccessibleDestination "x"), [], [], [.bundleOpened]⟩ :=
  inaccessible_destination_check envMissingDir "p" "x" .all true rfl rfl

/-- C10: a supplied output path that exists but is a regular file rather than
a directory is rejected with the same inaccessible-destination error before
any traversal work, because the precondition tests `is_dir`, not mere
existence. -/
theorem nondirectory_destination_check (env : Env) (packPath p : String)
    (check : SafetyCheck) (deletePack : Bool)
    (hb : env.bundleOk = true) (hfs : env.fs p = some .file) :
    pack_or_pack_index env packPath (some p) check deletePack =
      ⟨.error (.inaccessibleDestination p), [], [], [.bundleOpened]⟩ := by
  unfold pack_or_pack_index
  simp [hb, dirCheck, isDir, hfs]

/-- Concrete filesystem for the C10 witness: "f" exists as a regular file. -/
def envFileDest : Env :=
  ⟨true, "f.idx", "f.pack", fun q => if q = "f" then some .file else some .dir,
   [⟨.blob, [1], 1⟩], hashLen, true, true⟩

/-- Witness for C10: the existing regular file "f" is rejected exactly like a
missing directory. -/
theorem nondirectory_destination_check_ex :
    pack_or_pack_index envFileDest "p" (some "f") .all true =
      ⟨.error (.inaccessibleDestination "f"), [], [], [.bundleOpened]⟩ :=
  nondirectory_destination_check envFileDest "p" "f" .all true rfl rfl

/-- C1: if the run without deletion would succeed but removing either pack
file fails, the run with `delete_pack` reports the distinct `RemoveFile` error
naming both paths — never a traversal (explosion) error — and the store and
informational output of the successful explosion are exactly preserved. -/
theorem deletion_failure_distinct (env : Env) (packPath : String)
    (objectPath : Option String) (check : SafetyCheck)
    (hok : (pack_or_pack_index env packPath objectPath check false).result = .ok ())
    (hrm : env.removeIndexOk = false ∨ env.removeDataOk = false) :
    (pack_or_pack_index env packPath objectPath check true).result =
      .error (.removeFile env.indexPath env.dataPath)
  ∧ (pack_or_pack_index env packPath objectPath check true).store =
      (pack_or_pack_index env packPath objectPath check false).store
  ∧ (pack_or_pack_index env packPath objectPath check true).infos =
      (pack_or_pack_index env packPath objectPath check false).infos
  ∧ ∀ e, (pack_or_pack_index env packPath objectPath check true).result ≠
      .error (.traversal e) := by
  cases hb : env.bundleOk with
  | false => simp [pack_or_pack_index, hb] at hok
  | true =>
    rcases hdc : dirCheck env objectPath with _ | p
    · rcases htr : traverseEntries env.hash (OutputWriter.new objectPath) env.entries [] []
        [.bundleOpened, .cacheCreated] with ⟨res, st, infos, evs⟩
      cases res with
      | error e => simp [pack_or_pack_index, hb, hdc, htr] at hok
      | ok u =>
        rcases hrm with h | h
        · simp [pack_or_pack_index, hb, hdc, htr, h]
        · by_cases hri : env.removeIndexOk <;>
            simp [pack_or_pack_index, hb, hdc, htr, h, hri]
    · simp [pack_or_pack_index, hb, hdc] at hok

/-- Environment for the C1 witness: one clean blob, but removing the index
file fails. -/
def envRemoveFails : Env :=
  ⟨true, "r.idx", "r.pack", fun _ => some .dir, [⟨.blob, [1], 1⟩], hashLen, false, true⟩

/-- Witness for C1: the failed deletion reports `RemoveFile` over both paths
while the loose object written by the explosion is preserved. -/
theorem deletion_failure_distinct_ex :
    (pack_or_pack_index envRemoveFails "p" (some "d") .all true).result =
      .error (.removeFile "r.idx" "r.pack")
  ∧ (pack_or_pack_index envRemoveFails "p" (some "d") .all true).store =
      (pack_or_pack_index envRemoveFails "p" (some "d") .all false).store := by
  have h := deletion_failure_distinct envRemoveFails "p" (some "d") .all rfl (Or.inl rfl)
  exact ⟨h.1, h.2.1⟩

/-- C3: with `delete_pack = true` (and the removal operations themselves able
to succeed), the two backing files are removed — index first, then data — if
and only if the traversal phase completed without a fatal error; on any
failure before or during traversal nothing is removed, and no removal ever
precedes the drop of the bundle in the event trace. -/
theorem deletion_gating (env : Env) (packPath : String) (objectPath : Option String)
    (check : SafetyCheck)
    (hI : env.removeIndexOk = true) (hD : env.removeDataOk = true) :
    ((pack_or_pack_index env packPath objectPath check false).result = .ok () →
       (pack_or_pack_index env packPath objectPath check true).result = .ok ()
       ∧ removals (pack_or_pack_index env packPath objectPath check true).events =
           [env.indexPath, env.dataPath]
       ∧ removals ((pack_or_pack_index env packPath objectPath check true).events.takeWhile
           notDropped) = [])
  ∧ ((pack_or_pack_index env packPath objectPath check false).result ≠ .ok () →
       removals (pack_or_pack_index env packPath objectPath check true).events = []) := by
  cases hb : env.bundleOk with
  | false =>
    constructor
    · intro hok; simp [pack_or_pack_index, hb] at hok
    · intro _; simp [pack_or_pack_index, hb, removals]
  | true =>
    rcases hdc : dirCheck env objectPath with _ | p
    · rcases htr : traverseEntries env.hash (OutputWriter.new objectPath) env.entries [] []
        [.bundleOpened, .cacheCreated] with ⟨res, st, infos, evs⟩
      have hev := traverseEntries_events env.hash (OutputWriter.new objectPath) env.entries
        [] [] [.bundleOpened, .cacheCreated]
      rw [htr] at hev
      rcases hev with ⟨mid, hmid, hall⟩
      simp only at hmid
      have hrm_mid : removals mid = [] := removals_of_vc mid hall
      have hrm_evs : removals evs = [] := by
        rw [hmid, removals, List.filterMap_append]
        simpa [removals] using hrm_mid
      cases res with
      | error e =>
        constructor
        · intro hok; simp [pack_or_pack_index, hb, hdc, htr] at hok
        · intro _
          simpa [pack_or_pack_index, hb, hdc, htr] using hrm_evs
      | ok u =>
        constructor
        · intro _
          have hnd : ∀ e ∈ evs, notDropped e = true := by
            intro e he
            rw [hmid] at he
            rcases List.mem_append.mp he with he | he
            · rcases List.mem_cons.mp he with rfl | he
              · rfl
              · rcases List.mem_cons.mp he with rfl | he
                · rfl
                · simp at he
            · rcases hall e he with ⟨oid, rfl⟩
              rfl
          refine ⟨?_, ?_, ?_⟩
          · simp [pack_or_pack_index, hb, hdc, htr, hI, hD]
          · simp [pack_or_pack_index, hb, hdc, htr, hI, hD, removals,
              List.filterMap_append, hrm_evs]
            simpa [removals] using hrm_evs
          · have harr : (pack_or_pack_index env packPath objectPath check true).events =
                evs ++ Event.bundleDropped ::
                  [Event.removedFile env.indexPath, Event.removedFile env.dataPath] := by
              simp [pack_or_pack_index, hb, hdc, htr, hI, hD]
            rw [harr, takeWhile_all_append notDropped evs Event.bundleDropped
              [Event.removedFile env.indexPath, Event.removedFile env.dataPath] hnd rfl]
            exact hrm_evs
        · intro hne
          exact absurd (by simp [pack_or_pack_index, hb, hdc, htr]) hne
    · constructor
      · intro hok; simp [pack_or_pack_index, hb, hdc] at hok
      · intro _; simp [pack_or_pack_index, hb, hdc, removals]

/-- Environment for the C3 witness: one clean blob, removals succeed. -/
def envDeleteOk : Env :=
  ⟨true, "g.idx", "g.pack", fun _ => some .dir, [⟨.blob, [1], 1⟩], hashLen, true, true⟩

/-- Witness for C3: the successful run removes exactly the index then the data
file, with no removal before the bundle drop. -/
theorem deletion_gating_ex :
    (pack_or_pack_index envDeleteOk "p" none .all true).result = .ok ()
  ∧ removals (pack_or_pack_index envDeleteOk "p" none .all true).events =
      ["g.idx", "g.pack"]
  ∧ removals ((pack_or_pack_index envDeleteOk "p" none .all true).events.takeWhile
      notDropped) = [] :=
  (deletion_gating envDeleteOk "p" none .all rfl rfl).1 rfl
